import Mathlib

/-!
Verification of the logical-config reference resolver (src/logical-config.js).

The development shallowly embeds the JavaScript source into Lean:

* JavaScript runtime values become the inductive type `Value`.  Functions and
  classes are defunctionalized: a callable carries its declared arity (its
  `length` in JS) and a `FuncImpl` tag interpreted by `applyImpl`.  Only the
  callables exercised by the specification's examples are enumerated.  Numbers
  are modelled as integers plus an explicit `nan`; IEEE-754 specifics are out
  of scope.
* Fallible JS code (thrown exceptions) becomes `Except JSError`.
* The recursive `fill` walker is given an explicit fuel argument; `.noFuel`
  is a model artifact that never occurs in any statement proved below
  (concrete runs use ample fuel, and general statements are fuel-generic).

Each embedded definition mirrors one function of the source file and is named
after it; comments cite the corresponding source lines.
-/

/-- Tags selecting the interpretation of a callable value (a defunctionalized
JS function or class body).  `constNum n` is `() => n`; `constStr t` is
`() => "t"`; `addXY` is `(x, y) => x + y`; `numPlusOne` is
`(n) => Number(n) + 1`.  These are the callables appearing in the spec's
testable properties. -/
inductive FuncImpl where
  | constNum (n : Int)
  | constStr (t : String)
  | addXY
  | numPlusOne
deriving Repr, DecidableEq

/-- A JavaScript runtime value.  `undef` is `undefined`; `nan` is the number
`NaN`; `num` covers the integer-valued numbers (the only ones this repository's
spec exercises); `arr`/`obj` are arrays and plain objects (insertion-ordered
field lists; JS objects have unique keys); `func n i` / `cls n i` are a
function / class with declared parameter count `n` (its `.length`) and
defunctionalized body `i`. -/
inductive Value where
  | undef
  | null
  | bool (b : Bool)
  | num (n : Int)
  | nan
  | str (s : String)
  | arr (elems : List Value)
  | obj (fields : List (String × Value))
  | func (arity : Nat) (impl : FuncImpl)
  | cls (arity : Nat) (impl : FuncImpl)
deriving Inhabited

/-- The error kinds thrown by the source (plus the fuel artifact).
`notAccessible` is "Referenced path ... is not accessble." (line 122);
`notCallable` is "... with 'call' enabled, but referenced path is not
callable." (lines 126-129); `badArity` is "... an invalid number of
parameters was passed ..." (lines 142-146); `badJson` is the `SyntaxError`
thrown by `JSON.parse` (line 89); `typeErr` is the `TypeError` thrown by
`Object.entries` on `null`/`undefined` (line 263). -/
inductive JSError where
  | notAccessible
  | notCallable
  | badArity (provided required : Nat)
  | badJson
  | typeErr
  | noFuel
deriving Repr, DecidableEq

/-- JS `typeof` as a string, on the embedded values.  Note `typeof null`
is `"object"`. -/
def typeofStr : Value → String
  | .undef => "undefined"
  | .null => "object"
  | .bool _ => "boolean"
  | .num _ => "number"
  | .nan => "number"
  | .str _ => "string"
  | .arr _ => "object"
  | .obj _ => "object"
  | .func _ _ => "function"
  | .cls _ _ => "function"

/-- JS truthiness: `undefined`, `null`, `false`, `0`, `NaN` and `""` are
falsy; every other value (including empty arrays and objects) is truthy. -/
def truthy : Value → Bool
  | .undef => false
  | .null => false
  | .bool b => b
  | .num n => n != 0
  | .nan => false
  | .str s => s.length != 0
  | .arr _ => true
  | .obj _ => true
  | .func _ _ => true
  | .cls _ _ => true

/-- First-match lookup in an object's field list (JS objects have unique
keys, so the match order is immaterial). -/
def getField : List (String × Value) → String → Value
  | [], _ => .undef
  | (k', v') :: rest, k => if k' == k then v' else getField rest k

/-- A decimal digit. -/
def isDigitCh (c : Char) : Bool := '0' ≤ c && c ≤ '9'

/-- Value of a digit string. -/
def digitsVal (ds : List Char) : Nat :=
  ds.foldl (fun acc c => acc * 10 + (c.toNat - 48)) 0

/-- The decimal digit character for `n < 10`. -/
def digitCh (n : Nat) : Char := Char.ofNat (48 + n)

/-- Decimal numeral of a natural number (most significant digit first);
the inner recursion is fueled by the number itself, which bounds its digit
count. -/
def natChars (n : Nat) : List Char :=
  let rec go : Nat → Nat → List Char
    | 0, _ => []
    | fuel + 1, m => if m < 10 then [digitCh m] else go fuel (m / 10) ++ [digitCh (m % 10)]
  go (n + 1) n

/-- Decimal rendering of a natural number (JS coerces array indices to
strings this way when joining paths). -/
def natToStr (n : Nat) : String := String.mk (natChars n)

/-- Value of an all-digit character list, if non-empty. -/
def charsToNat? (cs : List Char) : Option Nat :=
  if !cs.isEmpty && cs.all isDigitCh then some (digitsVal cs) else none

/-- Parse a canonical non-negative decimal numeral (a JS array index: the
numeral must round-trip, excluding leading zeros and signs). -/
def canonicalIndex (k : String) : Option Nat :=
  match charsToNat? k.data with
  | some i => if natChars i == k.data then some i else none
  | none => none

/-- JS property read `v[k]`, total.  Objects look up their field list;
arrays expose `length` and their canonical numeric indices; strings expose
`length`; functions and classes expose `length` (the declared arity, used by
the arity check).  Primitives have no own properties that this repository
reads; reads on `null`/`undefined` would throw in JS but every call site
below guards them behind a truthiness test, so `.undef` here is unreachable
rather than a modelling choice. -/
def getProp : Value → String → Value
  | .obj fields, k => getField fields k
  | .arr elems, k =>
    if k == "length" then .num elems.length
    else match canonicalIndex k with
      | some i => elems.getD i .undef
      | none => .undef
  | .str s, k => if k == "length" then .num s.length else .undef
  | .func n _, k => if k == "length" then .num n else .undef
  | .cls n _, k => if k == "length" then .num n else .undef
  | _, _ => Value.undef

/-- Replace the value of field `k` in place (JS spread `{...obj, k: v}`
keeps an existing key at its original position), appending if absent.
JS objects have unique keys, so replacing the first occurrence is exact. -/
def setField : List (String × Value) → String → Value → List (String × Value)
  | [], k, v => [(k, v)]
  | (k', v') :: rest, k, v =>
    if k' == k then (k, v) :: rest else (k', v') :: setField rest k v

/-- JS spread-update `{...obj, k: v}` on the embedded values.  Only ever
applied to objects in this development (`isValidPathObject` forces its
argument to be an object first); the default clause mirrors the fact that
spreading a primitive contributes no fields. -/
def setProp (v0 : Value) (k : String) (v : Value) : Value :=
  match v0 with
  | .obj fields => .obj (setField fields k v)
  | _ => .obj [(k, v)]

/-- JS `a || b`. -/
def jsOr (a b : Value) : Value := if truthy a then a else b

/-- JS strict equality with `undefined` (`x === undefined`). -/
def strictUndef : Value → Bool
  | .undef => true
  | _ => false

/-- JS loose equality with `undefined` (`x == undefined`): true exactly for
`undefined` and `null`. -/
def looseUndef : Value → Bool
  | .undef => true
  | .null => true
  | _ => false

/-- Source lines 2-8: `isCallable = item => typeof item === 'function'`. -/
def isCallable (item : Value) : Bool := typeofStr item == "function"

/-- Source lines 17-21: `isFunction` distinguishes plain functions from
classes by own-property names (`prototype` absent, as for arrow functions,
or `arguments` present, as for non-strict `function` declarations; a class
has `prototype` and no `arguments`).  On the embedded values this is exactly
the `func` / `cls` distinction. -/
def isFunction : Value → Bool
  | .func _ _ => true
  | _ => false

/-- `.length` as a count (`(obj.parameters || []).length`, line 139).  Only
arrays reach this in the source (`parameters` is validated to be an array
or `undefined`, and `|| []` replaces the falsy cases). -/
def jsLengthNat : Value → Nat
  | .arr elems => elems.length
  | .str s => s.length
  | .func n _ => n
  | .cls n _ => n
  | _ => 0

/-- Source lines 31-34: `tryResolveDotPath`.  Splits on `'.'` and reduces
with `(a, b) => a ? a[b] : undefined`, starting from `obj`; non-string paths
yield `undefined`. -/
def tryResolveDotPath (dotPath obj : Value) : Value :=
  match dotPath with
  | .str s =>
    ((List.splitOn '.' s.data).map String.mk).foldl
      (fun a b => if truthy a then getProp a b else .undef) obj
  | _ => .undef

section ShortHand

/-- The character `{` (written via its code point to keep brace characters
out of string literals). -/
def lbrace : Char := Char.ofNat 123

/-- The character `}`. -/
def rbrace : Char := Char.ofNat 125

/-- No newline occurs among the characters (the regex classes `[^;\n]` and
`[^\n]`). -/
def noNl (cs : List Char) : Bool := !(cs.contains '\n')

/-- The characters of `true`. -/
def trueChars : List Char := ['t', 'r', 'u', 'e']

/-- The characters of `false`. -/
def falseChars : List Char := ['f', 'a', 'l', 's', 'e']

/-- Split off the segment before the first `sep`, together with the rest
(separator excluded), if `sep` occurs. -/
def splitFirst (sep : Char) : List Char → Option (List Char × List Char)
  | [] => none
  | c :: cs =>
    if c == sep then some ([], cs)
    else match splitFirst sep cs with
      | some (p, r) => some (c :: p, r)
      | none => none

/-- Recognizer for the part of the short-hand regex after the path, i.e. the
language of `(|;|;\[[^\n]*\])(|;|;(true|false))` restricted to non-empty
strings starting with `;` (the path never contains `;`, so the remainder
always starts at the first semicolon).  Enumerates the concatenations whose
middle part is not a bracketed parameter segment, and recognizes
`;[` &lt;no-newline&gt; `]` followed by one of the four call segments by
prefix/suffix (the length bound keeps prefix and suffix disjoint). -/
def shortHandTail (r : List Char) : Bool :=
  r == [';'] || r == ';' :: trueChars || r == ';' :: falseChars ||
  r == [';', ';'] || r == ';' :: ';' :: trueChars || r == ';' :: ';' :: falseChars ||
  ([';', '['].isPrefixOf r && noNl r &&
    ((List.isSuffixOf [']'] r && 2 + 1 ≤ r.length) ||
     (List.isSuffixOf [']', ';'] r && 2 + 2 ≤ r.length) ||
     (List.isSuffixOf (']' :: ';' :: trueChars) r && 2 + 6 ≤ r.length) ||
     (List.isSuffixOf (']' :: ';' :: falseChars) r && 2 + 7 ≤ r.length)))

/-- Source lines 42-45: the short-hand regex
`^\{[^;\n]{1,}(|;|;\[[^\n]*\])(|;|;(true|false))\}$`, on a string.  The
string must be `{` body `}` where body = path ++ rest: the path is the
non-empty semicolon-free newline-free prefix (it must stop exactly at the
first `;`, since both optional groups are empty or start with `;`), and
`rest` is recognized by `shortHandTail`. -/
def isShortHandStr (s : String) : Bool :=
  match s.data with
  | [] => false
  | c :: cs =>
    c == lbrace && cs.getLast? == some rbrace &&
    (let body := cs.dropLast
     match splitFirst ';' body with
     | none => !body.isEmpty && noNl body
     | some (p, r) => !p.isEmpty && noNl p && shortHandTail (';' :: r))

/-- Source lines 42-45: `isShortHand` — a string matching the short-hand
pattern; any non-string is rejected by the `typeof` test. -/
def isShortHand : Value → Bool
  | .str s => isShortHandStr s
  | _ => false

end ShortHand

section JsonParse

/-- JSON insignificant whitespace. -/
def jsonWs (c : Char) : Bool := c == ' ' || c == '\t' || c == '\n' || c == '\r'

/-- Drop leading JSON whitespace. -/
def dropWs : List Char → List Char
  | c :: cs => if jsonWs c then dropWs cs else c :: cs
  | [] => []

/-- Longest digit prefix and the remainder. -/
def spanDigits : List Char → List Char × List Char
  | c :: cs =>
    if isDigitCh c then
      let (ds, r) := spanDigits cs
      (c :: ds, r)
    else ([], c :: cs)
  | [] => ([], [])

/-- Hex digit value, if any. -/
def hexDigit (c : Char) : Option Nat :=
  if '0' ≤ c && c ≤ '9' then some (c.toNat - 48)
  else if 'a' ≤ c && c ≤ 'f' then some (c.toNat - 87)
  else if 'A' ≤ c && c ≤ 'F' then some (c.toNat - 55)
  else none

/-- Parse the body of a JSON string literal (the opening quote already
consumed), handling the escape sequences of RFC 8259. -/
def jsonStringBody : Nat → List Char → Option (List Char × List Char)
  | 0, _ => none
  | _ + 1, [] => none
  | fuel + 1, c :: cs =>
    if c == '"' then some ([], cs)
    else if c == '\\' then
      match cs with
      | [] => none
      | e :: cs' =>
        let esc : Option (Char × List Char) :=
          if e == '"' then some ('"', cs')
          else if e == '\\' then some ('\\', cs')
          else if e == '/' then some ('/', cs')
          else if e == 'b' then some (Char.ofNat 8, cs')
          else if e == 'f' then some (Char.ofNat 12, cs')
          else if e == 'n' then some ('\n', cs')
          else if e == 'r' then some ('\r', cs')
          else if e == 't' then some ('\t', cs')
          else if e == 'u' then
            match cs' with
            | h1 :: h2 :: h3 :: h4 :: cs'' =>
              match hexDigit h1, hexDigit h2, hexDigit h3, hexDigit h4 with
              | some a, some b, some c1, some d =>
                some (Char.ofNat (((a * 16 + b) * 16 + c1) * 16 + d), cs'')
              | _, _, _, _ => none
            | _ => none
          else none
        match esc with
        | some (ch, rest) =>
          match jsonStringBody fuel rest with
          | some (out, r) => some (ch :: out, r)
          | none => none
        | none => none
    else
      match jsonStringBody fuel cs with
      | some (out, r) => some (c :: out, r)
      | none => none

mutual

/-- Parse one JSON value (leading whitespace allowed), returning it with the
unconsumed remainder.  Numbers are restricted to optionally-signed integer
numerals: the repository only ever decodes integer parameters, and IEEE-754
doubles are outside this embedding, so fractional/exponent numerals are not
recognized. -/
def jsonValue : Nat → List Char → Option (Value × List Char)
  | 0, _ => none
  | fuel + 1, cs =>
    match dropWs cs with
    | [] => none
    | c :: rest =>
      if c == 'n' then
        if ['u', 'l', 'l'].isPrefixOf rest then some (.null, rest.drop 3) else none
      else if c == 't' then
        if ['r', 'u', 'e'].isPrefixOf rest then some (.bool true, rest.drop 3) else none
      else if c == 'f' then
        if ['a', 'l', 's', 'e'].isPrefixOf rest then some (.bool false, rest.drop 4) else none
      else if c == '"' then
        match jsonStringBody fuel rest with
        | some (out, r) => some (.str (String.mk out), r)
        | none => none
      else if c == '[' then
        match dropWs rest with
        | ']' :: r => some (.arr [], r)
        | other =>
          match jsonElems fuel other with
          | some (vs, r) => some (.arr vs, r)
          | none => none
      else if c == lbrace then
        match dropWs rest with
        | m :: r =>
          if m == rbrace then some (.obj [], r)
          else
            match jsonMembers fuel (m :: r) with
            | some (ms, r') => some (.obj ms, r')
            | none => none
        | [] => none
      else if c == '-' then
        match spanDigits rest with
        | ([], _) => none
        | (ds, r) => some (.num (-(digitsVal ds : Int)), r)
      else if isDigitCh c then
        match spanDigits (c :: rest) with
        | ([], _) => none
        | (ds, r) => some (.num (digitsVal ds : Int), r)
      else none

/-- Parse a non-empty comma-separated list of array elements up to `]`. -/
def jsonElems : Nat → List Char → Option (List Value × List Char)
  | 0, _ => none
  | fuel + 1, cs =>
    match jsonValue fuel cs with
    | none => none
    | some (v, r) =>
      match dropWs r with
      | ',' :: r' =>
        match jsonElems fuel r' with
        | some (vs, r'') => some (v :: vs, r'')
        | none => none
      | ']' :: r' => some ([v], r')
      | _ => none

/-- Parse a non-empty comma-separated list of object members up to `}`. -/
def jsonMembers : Nat → List Char → Option (List (String × Value) × List Char)
  | 0, _ => none
  | fuel + 1, cs =>
    match dropWs cs with
    | '"' :: r =>
      match jsonStringBody fuel r with
      | none => none
      | some (key, r1) =>
        match dropWs r1 with
        | ':' :: r2 =>
          match jsonValue fuel r2 with
          | none => none
          | some (v, r3) =>
            match dropWs r3 with
            | ',' :: r4 =>
              match jsonMembers fuel r4 with
              | some (ms, r5) => some ((String.mk key, v) :: ms, r5)
              | none => none
            | m :: r4 =>
              if m == rbrace then some ([(String.mk key, v)], r4) else none
            | [] => none
        | _ => none
    | _ => none

end

/-- `JSON.parse` on the embedded values: the whole input must be one JSON
value surrounded only by whitespace; `none` models the thrown
`SyntaxError`. -/
def jsonParse (s : String) : Option Value :=
  match jsonValue (s.length + 1) s.data with
  | some (v, rest) => if (dropWs rest).isEmpty then some v else none
  | none => none

end JsonParse

/-- `Array.isArray` on the embedded values. -/
def isArray : Value → Bool
  | .arr _ => true
  | _ => false

/-- Source lines 53-67: `isValidPathObject` — the candidate is truthy, its
`path` is a truthy string, its `call` is a boolean or loosely `undefined`,
and its `parameters` is an array (`typeof ... === 'object' &&
Array.isArray(...)`) or strictly `undefined`. -/
def isValidPathObject (v : Value) : Bool :=
  truthy v && truthy (getProp v "path") && (typeofStr (getProp v "path") == "string")
  && (typeofStr (getProp v "call") == "boolean" || looseUndef (getProp v "call"))
  && ((typeofStr (getProp v "parameters") == "object" && isArray (getProp v "parameters"))
      || strictUndef (getProp v "parameters"))

/-- Source lines 84-97, the short-hand branch of `parsePathObject` on the
string `s`: slice off the braces, split on `;`, destructure into
`[path, params, call]` (missing segments are `undefined`), JSON-decode a
non-empty `params` (a thrown `SyntaxError` propagates), and map a literal
`"true"`/`"false"` call segment to a boolean, anything else to `undefined`.
The result object carries the keys `path`, `parameters`, `call` (the latter
two possibly holding `undefined`, as the JS object literal does). -/
def parseShortHandStr (s : String) : Except JSError Value :=
  let elems := (List.splitOn ';' (s.data.drop 1).dropLast).map String.mk
  let path : String := elems.getD 0 ""
  match
    (match elems[1]? with
     | none => Except.ok Value.undef
     | some ps =>
       if ps.length > 0 then
         match jsonParse ps with
         | some pv => Except.ok pv
         | none => Except.error JSError.badJson
       else Except.ok Value.undef) with
  | .error e => .error e
  | .ok parameters =>
    let call : Value :=
      match elems[2]? with
      | some c => if c == "true" || c == "false" then .bool (c == "true") else .undef
      | none => .undef
    .ok (.obj [("path", .str path), ("parameters", parameters), ("call", call)])

/-- Source lines 77-100: `parsePathObject`.  A valid path-object is returned
spread with a `supportsNested: true` tag; otherwise a short-hand string is
decomposed; otherwise the empty object `{}` is returned (`result || {}`;
both successful branches produce truthy objects, so `||` only supplies the
final default). -/
def parsePathObject (v : Value) : Except JSError Value :=
  if isValidPathObject v then .ok (setProp v "supportsNested" (.bool true))
  else if isShortHand v then
    match v with
    | .str s => parseShortHandStr s
    | _ => .ok (.obj [])
  else .ok (.obj [])

/-- Source line 109: `getDef = (obj, def) => obj === undefined ? def : obj`
(the source's default `def = true` is always overridden at its call
sites). -/
def getDef (v dflt : Value) : Value :=
  if strictUndef v then dflt else v

/-- The declared parameter count used by the arity check (source lines
133-137): a plain function's own `.length`, a class's
`prototype.constructor.length` — in this embedding both are the recorded
arity (the `|| []` fallback is dead: `prototype.constructor` is the class
itself and never falsy). -/
def declaredArity : Value → Nat
  | .func n _ => n
  | .cls n _ => n
  | _ => 0

/-- Source lines 120-151: `pathObjectExpressesSymbol`.  Throws
`notAccessible` when the resolved target is `undefined`; throws
`notCallable` when the target is not callable but `getDef(obj.call, false)`
is truthy (i.e. only when `call` is explicitly `true`); when the target is
callable and `getDef(obj.call, false)` is truthy, compares the provided
parameter count `(obj.parameters || []).length` against the declared one
and throws `badArity` on mismatch; otherwise returns `true`. -/
def pathObjectExpressesSymbol (obj resolved : Value) : Except JSError Bool :=
  if strictUndef resolved then .error .notAccessible
  else if !isCallable resolved && truthy (getDef (getProp obj "call") (.bool false)) then
    .error .notCallable
  else if isCallable resolved && truthy (getDef (getProp obj "call") (.bool false)) then
    let requiredLength := declaredArity resolved
    let providedLength := jsLengthNat (jsOr (getProp obj "parameters") (.arr []))
    if truthy (getDef (getProp obj "call") (.bool true)) && providedLength != requiredLength then
      .error (.badArity providedLength requiredLength)
    else .ok true
  else .ok true

/-- JS `Number(v)` on the embedded values (integer-valued conversions; a
string must be an optionally-signed decimal numeral after trimming, the
empty string converts to `0`; plain objects convert to `NaN`; the array
`toPrimitive` chain is not modelled — no claim exercises it). -/
def jsToNumber : Value → Value
  | .num n => .num n
  | .nan => .nan
  | .undef => .nan
  | .null => .num 0
  | .bool b => .num (if b then 1 else 0)
  | .str s =>
    (let cs := s.data.dropWhile (fun c => jsonWs c)
     let cs := cs.reverse.dropWhile (fun c => jsonWs c) |>.reverse
     match cs with
     | [] => .num 0
     | '-' :: ds => if ds ≠ [] && ds.all isDigitCh then .num (-(digitsVal ds : Int)) else .nan
     | '+' :: ds => if ds ≠ [] && ds.all isDigitCh then .num (digitsVal ds : Int) else .nan
     | ds => if ds.all isDigitCh then .num (digitsVal ds : Int) else .nan)
  | _ => .nan

/-- JS `x + y` on the operand shapes reachable in this development: two
numbers add, two strings concatenate, and any combination involving
`undefined` or `NaN` yields `NaN` (e.g. `1 + undefined`).  Mixed
string/object coercions are not exercised by any claim. -/
def jsAdd : Value → Value → Value
  | .num a, .num b => .num (a + b)
  | .str a, .str b => .str (a ++ b)
  | _, _ => .nan

/-- Interpret a defunctionalized callable body on its (spread) argument
list.  Missing arguments read as `undefined`, extra ones are ignored —
exactly how the corresponding JS functions consume their parameters. -/
def applyImpl (impl : FuncImpl) (args : List Value) : Value :=
  match impl with
  | .constNum n => .num n
  | .constStr t => .str t
  | .addXY => jsAdd (args.getD 0 .undef) (args.getD 1 .undef)
  | .numPlusOne => jsAdd (jsToNumber (args.getD 0 .undef)) (.num 1)

/-- Invoke a function value (`await resolved(...args)`, source line 196). -/
def jsCall : Value → List Value → Value
  | .func _ impl, args => applyImpl impl args
  | _, _ => Value.undef

/-- Instantiate a class value (`new resolved(...args)`, source line 201). -/
def jsNew : Value → List Value → Value
  | .cls _ impl, args => applyImpl impl args
  | _, _ => Value.undef

/-- The spread argument list `...(obj.parameters || [])`: an array spreads
to its elements, the falsy cases (`undefined`) to nothing (a truthy
non-array would throw in JS, but `parameters` is validated to be an array
or `undefined` before any call site). -/
def asParamList : Value → List Value
  | .arr elems => elems
  | _ => []

/-- `Object.entries(input)` (source line 263): objects yield their field
list; `null` and `undefined` throw a `TypeError`; other primitives would
coerce to objects without enumerable own entries (unreachable here: `fill`
returns them before this point). -/
def jsObjectEntries : Value → Except JSError (List (String × Value))
  | .obj fields => .ok fields
  | .null => .error .typeErr
  | .undef => .error .typeErr
  | _ => .ok []

/-- The type of the recursive tree walker passed into the engine helpers
below: `fill` at one less fuel.  The walker and the resolution engine are
mutually recursive in the source; here the engine takes the walker as an
explicit argument and `fill` alone recurses (structurally, on its fuel), so
that all definitions reduce by computation. -/
def FillRec := Value → Value → List String → List String → Except JSError Value

/-- Source lines 164-204: `tryMakeReferenceable`, parameterized by the
recursive walker.  An invalid path-object is not referenceable; a
validation failure propagates as a thrown error; a non-callable target, or
a callable one whose effective `call` (`getDef(obj.call, true)`) is falsy,
is referenced as the resolved value itself; otherwise, when the descriptor
is tagged `supportsNested` (only structured input is) and has non-empty
`parameters`, the parameters array is first re-filled against the same
data (`fill({input: obj.parameters, data})`, with default ignored paths and
current path), and the target is then invoked (function call or class
construction).  The deferred `getReference` accessor is collapsed to the
value it would produce, since every call site invokes it immediately when
`isReferenceable` holds; `some` plays the role of `isReferenceable:
true`. -/
def tryMakeReferenceableGo (fillRec : FillRec) (obj resolved data : Value) :
    Except JSError (Option Value) :=
  if !isValidPathObject obj then .ok none
  else
    match pathObjectExpressesSymbol obj resolved with
    | .error e => .error e
    | .ok expresses =>
      if !expresses then .ok none
      else if !isCallable resolved then .ok (some resolved)
      else if !truthy (getDef (getProp obj "call") (.bool true)) then .ok (some resolved)
      else
        match
          (if truthy (getProp obj "supportsNested") && truthy (getProp obj "parameters")
              && jsLengthNat (getProp obj "parameters") > 0 then
            match fillRec (getProp obj "parameters") data [] [] with
            | .error e => .error e
            | .ok ps => .ok (setProp obj "parameters" ps)
          else .ok obj : Except JSError Value) with
        | .error e => .error e
        | .ok obj2 =>
          if isFunction resolved then
            .ok (some (jsCall resolved (asParamList (getProp obj2 "parameters"))))
          else
            .ok (some (jsNew resolved (asParamList (getProp obj2 "parameters"))))

/-- Source lines 240-260, the array loop of `fill`: for the element at
index `i`, the ignore test joins `currentPath` extended with the index, but
(as in the source, which pops the index before recursing) the recursive
call receives `currentPath` without the index. -/
def fillArrayElemsGo (fillRec : FillRec) :
    List Value → Nat → Value → List String → List String → Except JSError (List Value)
  | [], _, _, _, _ => .ok []
  | v :: rest, i, data, ignoredPaths, currentPath =>
    match
      (if ignoredPaths.contains (String.intercalate "." (currentPath ++ [natToStr i])) then .ok v
       else fillRec v data ignoredPaths currentPath : Except JSError Value) with
    | .error e => .error e
    | .ok hd =>
      match fillArrayElemsGo fillRec rest (i + 1) data ignoredPaths currentPath with
      | .error e => .error e
      | .ok tl => .ok (hd :: tl)

/-- Source lines 263-290, the entry loop of `fill`: an ignored key keeps
its entry verbatim (no parsing, no recursion); otherwise the value is
parsed and resolution attempted — note the source resolves
`parsed.path || v`, falling back to the raw value as dot path — and a
non-referenceable value recurses with the key appended to the current
path. -/
def fillEntriesGo (fillRec : FillRec) :
    List (String × Value) → Value → List String → List String →
    Except JSError (List (String × Value))
  | [], _, _, _ => .ok []
  | (k, v) :: rest, data, ignoredPaths, currentPath =>
    match
      (if ignoredPaths.contains (String.intercalate "." (currentPath ++ [k])) then .ok (k, v)
       else
         match parsePathObject v with
         | .error e => .error e
         | .ok parsed =>
           match tryMakeReferenceableGo fillRec parsed
               (tryResolveDotPath (jsOr (getProp parsed "path") v) data) data with
           | .error e => .error e
           | .ok (some res) => .ok (k, res)
           | .ok none =>
             match fillRec v data ignoredPaths (currentPath ++ [k]) with
             | .error e => .error e
             | .ok res => .ok (k, res) : Except JSError (String × Value)) with
    | .error e => .error e
    | .ok kv =>
      match fillEntriesGo fillRec rest data ignoredPaths currentPath with
      | .error e => .error e
      | .ok tl => .ok (kv :: tl)

/-- Source lines 216-295: `fill`.  Inputs whose `typeof` is neither
`'string'` nor `'object'` return unchanged; otherwise the node is parsed
and resolution attempted (a thrown error propagates); a referenceable node
is replaced by its reference; a remaining string passes through; an array
maps the walker over its elements honoring `ignoredPaths`; anything else
goes through `Object.entries` (throwing on `null`) and the per-entry loop,
and is rebuilt with `Object.fromEntries`.  Recursion is structural on the
fuel; `.noFuel` is the model artifact for exhaustion and never occurs in
the statements proved below. -/
def fill : Nat → Value → Value → List String → List String → Except JSError Value
  | 0, _, _, _, _ => .error .noFuel
  | fuel + 1, input, data, ignoredPaths, currentPath =>
    if !(["string", "object"].contains (typeofStr input)) then .ok input
    else
      match parsePathObject input with
      | .error e => .error e
      | .ok parsed =>
        match tryMakeReferenceableGo (fill fuel) parsed
            (tryResolveDotPath (getProp parsed "path") data) data with
        | .error e => .error e
        | .ok (some v) => .ok v
        | .ok none =>
          if typeofStr input == "string" then .ok input
          else
            match input with
            | .arr elems =>
              (match fillArrayElemsGo (fill fuel) elems 0 data ignoredPaths currentPath with
               | .error e => .error e
               | .ok out => .ok (.arr out))
            | _ =>
              match jsObjectEntries input with
              | .error e => .error e
              | .ok entries =>
                match fillEntriesGo (fill fuel) entries data ignoredPaths currentPath with
                | .error e => .error e
                | .ok out => .ok (.obj out)

/-- `tryMakeReferenceable` at explicit fuel: the engine applied to the
walker at the previous fuel level, exactly as `fill` invokes it. -/
def tryMakeReferenceable : Nat → Value → Value → Value → Except JSError (Option Value)
  | 0, _, _, _ => .error .noFuel
  | fuel + 1, obj, resolved, data => tryMakeReferenceableGo (fill fuel) obj resolved data

/-! ## General lemmas about the embedding -/

/-- A callable value is never `undefined`. -/
theorem callable_not_undef {r : Value} (h : isCallable r = true) : strictUndef r = false := by
  cases r <;> simp_all [isCallable, strictUndef, typeofStr]

/-- Only an object can pass `isValidPathObject`: every other constructor has
no truthy `path` property. -/
theorem valid_implies_obj {v : Value} (h : isValidPathObject v = true) :
    ∃ fields, v = .obj fields := by
  cases v
  case obj fields => exact ⟨fields, rfl⟩
  all_goals
    simp only [isValidPathObject, Bool.and_eq_true] at h
  all_goals
    exact Bool.noConfusion h.1.1.1.2

/-- A string is never a valid structured path-object (strings have no
`path` property). -/
theorem isValidPathObject_str (s : String) : isValidPathObject (.str s) = false := by
  have h : ¬(isValidPathObject (.str s) = true) := fun h => by
    simp only [isValidPathObject, Bool.and_eq_true] at h
    exact Bool.noConfusion h.1.1.1.2
  simpa using h

/-- Updating one field leaves lookups of other keys unchanged. -/
theorem getField_setField_ne (fs : List (String × Value)) (k k' : String) (v : Value)
    (h : k' ≠ k) : getField (setField fs k v) k' = getField fs k' := by
  have hk : (k == k') = false := beq_eq_false_iff_ne.mpr (Ne.symm h)
  induction fs with
  | nil => simp [setField, getField, hk]
  | cons head tl ih =>
    obtain ⟨k0, v0⟩ := head
    by_cases h0 : k0 = k
    · subst h0
      simp [setField, getField, hk]
    · have h0' : (k0 == k) = false := beq_eq_false_iff_ne.mpr h0
      simp only [setField, h0', Bool.false_eq_true, if_false, getField]
      by_cases h1 : k0 = k'
      · subst h1
        simp [getField]
      · have h1' : (k0 == k') = false := beq_eq_false_iff_ne.mpr h1
        simp [getField, h1', ih]

/-- Looking up the updated key yields the new value. -/
theorem getField_setField_self (fs : List (String × Value)) (k : String) (v : Value) :
    getField (setField fs k v) k = v := by
  induction fs with
  | nil => simp [setField, getField]
  | cons head tl ih =>
    obtain ⟨k0, v0⟩ := head
    by_cases h0 : k0 = k
    · subst h0
      simp [setField, getField]
    · have h0' : (k0 == k) = false := beq_eq_false_iff_ne.mpr h0
      simp [setField, getField, h0', ih]

/-- Re-updating a key with the same value is idempotent. -/
theorem setField_idem (fs : List (String × Value)) (k : String) (v : Value) :
    setField (setField fs k v) k v = setField fs k v := by
  induction fs with
  | nil => simp [setField]
  | cons head tl ih =>
    obtain ⟨k0, v0⟩ := head
    by_cases h0 : k0 = k
    · subst h0
      simp [setField]
    · have h0' : (k0 == k) = false := beq_eq_false_iff_ne.mpr h0
      simp [setField, h0', ih]

/-! ## Claim theorems -/

/-- C1 (counterexample): the claim says `parsePathObject` never raises an
error on any input, but on the compact-shaped string whose parameters
segment is the non-decodable `[x]` it throws the `JSON.parse` syntax
error. -/
theorem c1_counterexample :
    parsePathObject (.str "\x7ba;[x]\x7d") = .error .badJson := rfl

/-- C1 (amended): `parsePathObject` returns the empty descriptor for every
candidate that is neither a valid structured descriptor nor a compact
string, and the only error it can raise is the `JSON.parse` syntax error,
which occurs only for candidates that do match the compact shape (and are
not valid structured descriptors). -/
theorem c1_amended :
    (∀ v : Value, isValidPathObject v = false → isShortHand v = false →
      parsePathObject v = .ok (.obj []))
    ∧ (∀ (v : Value) (e : JSError), parsePathObject v = .error e →
      e = .badJson ∧ isShortHand v = true ∧ isValidPathObject v = false) := by
  constructor
  · intro v h1 h2
    cases v <;> simp_all [parsePathObject, isShortHand]
  · intro v e h
    by_cases hv : isValidPathObject v = true
    · simp [parsePathObject, hv] at h
    · have hv' : isValidPathObject v = false := by simpa using hv
      by_cases hs : isShortHand v = true
      · refine ⟨?_, hs, hv'⟩
        cases v <;> simp [isShortHand] at hs
        next s =>
          simp only [parsePathObject, hv', Bool.false_eq_true, if_false, isShortHand, hs, if_true] at h
          simp only [parseShortHandStr] at h
          split at h
          next exc err heq =>
            cases h
            repeat' split at heq
            all_goals simp_all
          next => simp at h
      · have hs' : isShortHand v = false := by simpa using hs
        simp [parsePathObject, hv', hs'] at h

/-- C1 (witness): the amended theorem applied to the number `0`, which is
neither structured nor compact and parses to the empty descriptor. -/
theorem c1_witness : parsePathObject (.num 0) = .ok (.obj []) :=
  c1_amended.1 (.num 0) rfl rfl

/-- C2 (counterexample): the claim includes `null` among the inputs
returned unchanged, but `typeof null` is `'object'`, so `null` reaches
`Object.entries(null)`, which throws a `TypeError`. -/
theorem c2_counterexample : fill 1 .null (.obj []) [] [] = .error .typeErr := rfl

/-- C2 (amended): for every data map, ignore list and path, `fill` returns
unchanged any input whose `typeof` is neither `'string'` nor `'object'` —
numbers, booleans, `undefined` (and functions) — without failing; `null`,
however, has `typeof` `'object'` and makes `fill` throw a `TypeError`. -/
theorem c2_amended (v data : Value) (ign cp : List String) (fuel : Nat)
    (h : (["string", "object"].contains (typeofStr v)) = false) :
    fill (fuel + 1) v data ign cp = .ok v := by
  simp only [fill]
  rw [h]
  rfl

/-- C2 (witness): the amended theorem applied to the number `7`. -/
theorem c2_witness :
    (["string", "object"].contains (typeofStr (.num 7))) = false
    ∧ fill 1 (.num 7) (.obj []) [] [] = .ok (.num 7) :=
  ⟨rfl, c2_amended (.num 7) (.obj []) [] [] 0 rfl⟩

/-- C3 (counterexample): the claim says a descriptor with explicit
`call=false` whose path resolves to a non-invocable target must fail with a
non-invocable error, but the source's `getDef(obj.call, false)` is falsy
for `call=false`, so `fill` silently passes the plain value `5` through. -/
theorem c3_counterexample :
    fill 16 (.obj [("path", .str "x"), ("call", .bool false)])
      (.obj [("x", .num 5)]) [] [] = .ok (.num 5) := rfl

/-- C3 (amended): against a non-invocable resolved target, validation
fails with the non-invocable error exactly when `call` is explicitly
`true`; an explicit `call=false` (like an unset `call`) validates
successfully, so the target value is passed through silently.  Such a
`notCallable` error propagates out of the whole `fill` run (concrete
conjunct). -/
theorem c3_amended (o r : Value) (h1 : isCallable r = false) (h2 : strictUndef r = false) :
    (getProp o "call" = .bool true → pathObjectExpressesSymbol o r = .error .notCallable)
    ∧ (getProp o "call" = .bool false → pathObjectExpressesSymbol o r = .ok true)
    ∧ fill 16 (.str "\x7bx;;true\x7d") (.obj [("x", .num 5)]) [] [] = .error .notCallable := by
  refine ⟨fun h3 => ?_, fun h3 => ?_, rfl⟩
  · have h4 : getDef (getProp o "call") (.bool false) = .bool true := by rw [h3]; rfl
    simp [pathObjectExpressesSymbol, h1, h2, h4, truthy]
  · have h4 : getDef (getProp o "call") (.bool false) = .bool false := by rw [h3]; rfl
    simp [pathObjectExpressesSymbol, h1, h2, h4, truthy]

/-- C3 (witness): the amended theorem at the structured descriptor
`{path: "x", call: true}` against the non-invocable target `5`. -/
theorem c3_witness :
    pathObjectExpressesSymbol (.obj [("path", .str "x"), ("call", .bool true)]) (.num 5)
      = .error .notCallable :=
  (c3_amended (.obj [("path", .str "x"), ("call", .bool true)]) (.num 5) rfl rfl).1 rfl

/-- C4 (counterexample): the claim says `parsePathObject` returns a valid
structured descriptor unchanged with no extra fields, but the source spreads
in a `supportsNested: true` tag, so the result differs from the input. -/
theorem c4_counterexample :
    parsePathObject (.obj [("path", .str "a.b"), ("parameters", .arr [.num 1, .num 2]),
      ("call", .bool true)])
    ≠ .ok (.obj [("path", .str "a.b"), ("parameters", .arr [.num 1, .num 2]),
      ("call", .bool true)]) := by
  intro h
  rw [show parsePathObject (.obj [("path", .str "a.b"), ("parameters", .arr [.num 1, .num 2]),
      ("call", .bool true)])
    = .ok (.obj [("path", .str "a.b"), ("parameters", .arr [.num 1, .num 2]),
      ("call", .bool true), ("supportsNested", .bool true)]) from rfl] at h
  simp at h

/-- C4 (amended): on a valid structured descriptor, `parsePathObject`
preserves the `path`, `parameters` and `call` fields but adds a
`supportsNested: true` tag; the map is idempotent in the sense that
applying `parsePathObject` to its own output returns that output
unchanged. -/
theorem c4_amended (d : Value) (h : isValidPathObject d = true) :
    parsePathObject d = .ok (setProp d "supportsNested" (.bool true))
    ∧ getProp (setProp d "supportsNested" (.bool true)) "path" = getProp d "path"
    ∧ getProp (setProp d "supportsNested" (.bool true)) "parameters" = getProp d "parameters"
    ∧ getProp (setProp d "supportsNested" (.bool true)) "call" = getProp d "call"
    ∧ getProp (setProp d "supportsNested" (.bool true)) "supportsNested" = .bool true
    ∧ parsePathObject (setProp d "supportsNested" (.bool true))
        = .ok (setProp d "supportsNested" (.bool true)) := by
  obtain ⟨fields, rfl⟩ := valid_implies_obj h
  have hpath : getProp (setProp (.obj fields) "supportsNested" (.bool true)) "path"
      = getProp (.obj fields) "path" :=
    getField_setField_ne fields "supportsNested" "path" (.bool true) (by decide)
  have hparams : getProp (setProp (.obj fields) "supportsNested" (.bool true)) "parameters"
      = getProp (.obj fields) "parameters" :=
    getField_setField_ne fields "supportsNested" "parameters" (.bool true) (by decide)
  have hcall : getProp (setProp (.obj fields) "supportsNested" (.bool true)) "call"
      = getProp (.obj fields) "call" :=
    getField_setField_ne fields "supportsNested" "call" (.bool true) (by decide)
  have hvalid2 : isValidPathObject (setProp (.obj fields) "supportsNested" (.bool true)) = true := by
    simp only [isValidPathObject] at h ⊢
    simp only [setProp] at hpath hparams hcall ⊢
    rw [show getProp (Value.obj (setField fields "supportsNested" (.bool true))) "path"
        = getProp (.obj fields) "path" from hpath,
      show getProp (Value.obj (setField fields "supportsNested" (.bool true))) "parameters"
        = getProp (.obj fields) "parameters" from hparams,
      show getProp (Value.obj (setField fields "supportsNested" (.bool true))) "call"
        = getProp (.obj fields) "call" from hcall]
    simpa [truthy] using h
  refine ⟨by simp [parsePathObject, h], hpath, hparams, hcall,
    getField_setField_self fields "supportsNested" (.bool true), ?_⟩
  simp only [parsePathObject, hvalid2, if_true]
  simp [setProp, setField_idem]

/-- C4 (witness): the amended theorem applied to the descriptor
`{path: "a.b", parameters: [1, 2], call: true}`. -/
theorem c4_witness :
    parsePathObject (.obj [("path", .str "a.b"), ("parameters", .arr [.num 1, .num 2]),
      ("call", .bool true)])
    = .ok (setProp (.obj [("path", .str "a.b"), ("parameters", .arr [.num 1, .num 2]),
      ("call", .bool true)]) "supportsNested" (.bool true)) :=
  (c4_amended (.obj [("path", .str "a.b"), ("parameters", .arr [.num 1, .num 2]),
    ("call", .bool true)]) rfl).1

/-- C5 (counterexample): the claim says `fill('{f;[1]}', {f: (x,y) => x+y})`
fails with an arity-mismatch error, but the arity check is guarded by
`getDef(obj.call, false)`, which is falsy for the unset `call` of the
compact form: the call proceeds with a missing argument and returns
`1 + undefined`, i.e. `NaN` — no error. -/
theorem c5_counterexample :
    fill 16 (.str "\x7bf;[1]\x7d") (.obj [("f", .func 2 .addXY)]) [] [] = .ok .nan := rfl

/-- C5 (amended): the exact-arity check applies only when `call` is
explicitly `true`: then any mismatch between the provided parameter count
and the declared one — too few or too many — raises the arity error
(general conjunct, and both concrete directions propagate out of `fill`);
with `call` unset, invocation proceeds without arity validation, and
`fill('{f;[1,2]}', M)` yields `3`. -/
theorem c5_amended (o r : Value) (h1 : isCallable r = true)
    (h2 : getProp o "call" = .bool true)
    (h3 : jsLengthNat (jsOr (getProp o "parameters") (.arr [])) ≠ declaredArity r) :
    pathObjectExpressesSymbol o r
      = .error (.badArity (jsLengthNat (jsOr (getProp o "parameters") (.arr []))) (declaredArity r))
    ∧ fill 16 (.str "\x7bf;[1,2]\x7d") (.obj [("f", .func 2 .addXY)]) [] [] = .ok (.num 3)
    ∧ fill 16 (.str "\x7bf;[1];true\x7d") (.obj [("f", .func 2 .addXY)]) [] []
        = .error (.badArity 1 2)
    ∧ fill 16 (.str "\x7bf;[1,2,3];true\x7d") (.obj [("f", .func 2 .addXY)]) [] []
        = .error (.badArity 3 2) := by
  refine ⟨?_, rfl, rfl, rfl⟩
  have h4 : getDef (getProp o "call") (.bool false) = .bool true := by rw [h2]; rfl
  have h5 : getDef (getProp o "call") (.bool true) = .bool true := by rw [h2]; rfl
  have h6 : strictUndef r = false := callable_not_undef h1
  simp [pathObjectExpressesSymbol, h1, h4, h5, h6, truthy, h3]

/-- C5 (witness): the amended theorem at the parsed form of `{f;[1];true}`
against `(x, y) => x + y`. -/
theorem c5_witness :
    pathObjectExpressesSymbol
      (.obj [("path", .str "f"), ("parameters", .arr [.num 1]), ("call", .bool true)])
      (.func 2 .addXY)
      = .error (.badArity 1 2) :=
  (c5_amended
    (.obj [("path", .str "f"), ("parameters", .arr [.num 1]), ("call", .bool true)])
    (.func 2 .addXY) rfl rfl (by decide)).1

/-- C7: parsing the compact string decomposes the bracketed
semicolon-delimited fields positionally into `path`, the JSON-decoded
`parameters` array, and the boolean `call`; `{a.b;[1,2];true}` yields
exactly `{path: "a.b", parameters: [1,2], call: true}`, and omitting
trailing fields leaves `parameters` and `call` unset (holding
`undefined`). -/
theorem c7_compact_decomposition :
    parsePathObject (.str "\x7ba.b;[1,2];true\x7d")
      = .ok (.obj [("path", .str "a.b"), ("parameters", .arr [.num 1, .num 2]),
          ("call", .bool true)])
    ∧ parsePathObject (.str "\x7ba.b;[1,2]\x7d")
      = .ok (.obj [("path", .str "a.b"), ("parameters", .arr [.num 1, .num 2]),
          ("call", .undef)])
    ∧ parsePathObject (.str "\x7ba.b\x7d")
      = .ok (.obj [("path", .str "a.b"), ("parameters", .undef), ("call", .undef)]) :=
  ⟨rfl, rfl, rfl⟩

/-- C8: whenever a valid descriptor's `call` is explicitly `false` and the
resolved target is invocable, the resolution engine references the target
value itself, uninvoked (general conjunct, for any data map and fuel); and
concretely `fill('{f;;false}', {f: () => 1})` returns the function value
itself, not `1`. -/
theorem c8_call_false_returns_target (o r d : Value) (fuel : Nat)
    (h1 : isValidPathObject o = true) (h2 : isCallable r = true)
    (h3 : getProp o "call" = .bool false) :
    tryMakeReferenceable (fuel + 1) o r d = .ok (some r)
    ∧ fill 16 (.str "\x7bf;;false\x7d") (.obj [("f", .func 0 (.constNum 1))]) [] []
        = .ok (.func 0 (.constNum 1)) := by
  refine ⟨?_, rfl⟩
  have h4 : getDef (getProp o "call") (.bool false) = .bool false := by rw [h3]; rfl
  have h5 : getDef (getProp o "call") (.bool true) = .bool false := by rw [h3]; rfl
  have h6 : strictUndef r = false := callable_not_undef h2
  simp [tryMakeReferenceable, tryMakeReferenceableGo, pathObjectExpressesSymbol,
    h1, h2, h4, h5, h6, truthy]

/-- C8 (witness): the theorem at the parsed form of `{f;;false}` against
`() => 1`. -/
theorem c8_call_false_returns_target_witness :
    tryMakeReferenceable 1
      (.obj [("path", .str "f"), ("parameters", .undef), ("call", .bool false)])
      (.func 0 (.constNum 1)) (.obj [("f", .func 0 (.constNum 1))])
      = .ok (some (.func 0 (.constNum 1))) :=
  (c8_call_false_returns_target
    (.obj [("path", .str "f"), ("parameters", .undef), ("call", .bool false)])
    (.func 0 (.constNum 1)) (.obj [("f", .func 0 (.constNum 1))]) 0 rfl rfl rfl).1

/-- C6: nested descriptor resolution in `parameters` applies to
structured-form descriptors only.  Structured: the inner `{path: "inner"}`
parameter is resolved to `"7"` before `outer` is invoked, so the result is
`8`.  Compact: the same data map with `{outer;[{"path":"inner"}]}` passes
the JSON-decoded descriptor object to `outer` unresolved, producing `NaN`.
The general conjunct shows why: a descriptor parsed from a string never
carries the `supportsNested` tag that gates nested resolution. -/
theorem c6_nested_structured_only :
    fill 16 (.obj [("path", .str "outer"), ("parameters", .arr [.obj [("path", .str "inner")]])])
      (.obj [("inner", .func 0 (.constStr "7")), ("outer", .func 1 .numPlusOne)]) [] []
      = .ok (.num 8)
    ∧ fill 16 (.str "\x7bouter;[\x7b\"path\":\"inner\"\x7d]\x7d")
      (.obj [("inner", .func 0 (.constStr "7")), ("outer", .func 1 .numPlusOne)]) [] []
      = .ok .nan
    ∧ (∀ (s : String) (r : Value), parsePathObject (.str s) = .ok r →
        getProp r "supportsNested" = .undef) := by
  refine ⟨rfl, rfl, fun s r h => ?_⟩
  simp only [parsePathObject, isValidPathObject_str, Bool.false_eq_true, if_false,
    isShortHand] at h
  by_cases hs : isShortHandStr s = true
  · rw [hs] at h
    simp only [if_true] at h
    simp only [parseShortHandStr] at h
    split at h
    next => exact absurd h (by simp)
    next =>
      injection h with h2
      subst h2
      rfl
  · have hs' : isShortHandStr s = false := by simpa using hs
    rw [hs'] at h
    simp only [Bool.false_eq_true, if_false] at h
    injection h with h2
    subst h2
    rfl

/-- C6 (witness): the general conjunct applied to the compact string
`{x}`, whose parsed descriptor indeed has no `supportsNested` tag. -/
theorem c6_witness :
    getProp (.obj [("path", .str "x"), ("parameters", .undef), ("call", .undef)])
      "supportsNested" = .undef :=
  c6_nested_structured_only.2.2 "\x7bx\x7d"
    (.obj [("path", .str "x"), ("parameters", .undef), ("call", .undef)]) rfl

/-- C9: an entry whose dot-joined path is in `ignoredPaths` is copied
verbatim — the general conjunct shows the entry loop returns the pair
`(k, v)` untouched (no descriptor parsing, no recursion) and processes
only the remaining entries; the concrete conjuncts show
`fill({a: "{x}", b: "{x}"}, {x: 5}, ["a"])` yields `{a: "{x}", b: 5}` and
the array analogue with index `0` ignored yields `["{x}", 5]` — siblings
resolved, ignored positions verbatim. -/
theorem c9_ignored_paths (fillRec : FillRec) (k : String) (v : Value)
    (rest : List (String × Value)) (data : Value) (ign cp : List String)
    (h : ign.contains (String.intercalate "." (cp ++ [k])) = true) :
    fillEntriesGo fillRec ((k, v) :: rest) data ign cp
      = (fillEntriesGo fillRec rest data ign cp).map (fun tl => (k, v) :: tl)
    ∧ fill 16 (.obj [("a", .str "\x7bx\x7d"), ("b", .str "\x7bx\x7d")])
        (.obj [("x", .num 5)]) ["a"] []
      = .ok (.obj [("a", .str "\x7bx\x7d"), ("b", .num 5)])
    ∧ fill 16 (.arr [.str "\x7bx\x7d", .str "\x7bx\x7d"]) (.obj [("x", .num 5)]) ["0"] []
      = .ok (.arr [.str "\x7bx\x7d", .num 5]) := by
  refine ⟨?_, rfl, rfl⟩
  simp only [fillEntriesGo, h, if_true]
  cases fillEntriesGo fillRec rest data ign cp <;> simp [Except.map]

/-- C9 (witness): the theorem applied to a one-entry object whose single
key `a` is ignored. -/
theorem c9_witness :
    fillEntriesGo (fill 0) [("a", .str "\x7bx\x7d")] (.obj [("x", .num 5)]) ["a"] []
      = (fillEntriesGo (fill 0) [] (.obj [("x", .num 5)]) ["a"] []).map
          (fun tl => ("a", .str "\x7bx\x7d") :: tl) :=
  (c9_ignored_paths (fill 0) "a" (.str "\x7bx\x7d") [] (.obj [("x", .num 5)]) ["a"] [] rfl).1
